import Mathlib

/-!
Shallow embedding of `exif_gps_from_geoclip.py` (the EXIF GPS annotation tool).

Python floats are modelled by `ℚ` (all arithmetic the tool performs on
coordinates is decimal-exact at the granularity the claims talk about);
Python dicts by association lists with first-key lookup and in-place
replacement on insert; the on-disk image file by an abstract payload plus
its embedded metadata container; the external GeoCLIP predictor and the
geodesic distance primitive are parameters (the spec treats both as
black-box collaborators).  Exceptions are modelled by `Except`/`Option`
and by an explicit fault-injection argument for the commit sequence.
-/

set_option maxHeartbeats 1000000

/-- Values that can sit in an Exif tag dictionary (only the shapes the tool
actually stores: small integer tuples, ASCII strings, single rationals,
triples of rationals, and raw byte strings). -/
inductive ExifVal where
  | vTuple (l : List ℤ)
  | vStr (s : String)
  | vRat (n d : ℤ)
  | vRatTriple (a b c : ℤ × ℤ)
  | vBytes (s : String)
  deriving DecidableEq

/-- A Python dict with natural-number keys, as an association list. -/
abbrev Dict := List (ℕ × ExifVal)

/-- Python `d[k]` / `d.get(k)`: first binding wins. -/
def dictGet (d : Dict) (k : ℕ) : Option ExifVal :=
  match d with
  | [] => none
  | (k₁, v) :: rest => if k₁ = k then some v else dictGet rest k

/-- Python `k in d`. -/
def dictMem (d : Dict) (k : ℕ) : Bool :=
  (dictGet d k).isSome

/-- Python `d[k] = v`: replace the first binding of `k` in place, else append. -/
def dictInsert (d : Dict) (k : ℕ) (v : ExifVal) : Dict :=
  match d with
  | [] => [(k, v)]
  | (k₁, v₁) :: rest => if k₁ = k then (k, v) :: rest else (k₁, v₁) :: dictInsert rest k v

/-- Python `d.update(new)`: insert every binding of `new` into `d`, left to right. -/
def dictUpdate (d new : Dict) : Dict :=
  new.foldl (fun acc kv => dictInsert acc kv.1 kv.2) d

/-- The five sections of a piexif metadata container
(`{"0th": .., "1st": .., "Exif": .., "GPS": .., "Interop": ..}`). -/
structure ExifDict where
  zeroth : Dict
  first : Dict
  exifSec : Dict
  gps : Dict
  interop : Dict
  deriving DecidableEq

/-- The empty container built at line 105 when the image has no exif info. -/
def emptyExif : ExifDict := ⟨[], [], [], [], []⟩

-- Constants of the source (lines 18-23) and the piexif GPS tag numbers.
def VERSION : String := "0.1.0"
def PROCESSED_TAG_INDEX : ℕ := 0xfe70
def PROCESSED_TAG_NON_VARIABLE : String := "exif_gps_from_geoclip"
def PROCESSED_TAG : String := PROCESSED_TAG_NON_VARIABLE ++ "_v" ++ VERSION
def GPSVersionID : ℕ := 0
def GPSLatitudeRef : ℕ := 1
def GPSLatitude : ℕ := 2
def GPSLongitudeRef : ℕ := 3
def GPSLongitude : ℕ := 4
def GPSAltitudeRef : ℕ := 5
def GPSAltitude : ℕ := 6

/-- Python `int(q)` for a real argument: truncation toward zero. -/
def pyInt (q : ℚ) : ℤ :=
  if q < 0 then -⌊-q⌋ else ⌊q⌋

/-- Python `round(q)` to an integer: nearest, ties to even. -/
def pyRound (q : ℚ) : ℤ :=
  if q - (⌊q⌋ : ℚ) < 1 / 2 then ⌊q⌋
  else if 1 / 2 < q - (⌊q⌋ : ℚ) then ⌊q⌋ + 1
  else if ⌊q⌋ % 2 = 0 then ⌊q⌋ else ⌊q⌋ + 1

/-- Python `round(q, 5)`: round to five decimal places (line 47). -/
def round5 (q : ℚ) : ℚ :=
  (pyRound (q * 100000) : ℚ) / 100000

/-- The (degrees, minutes, seconds, hemisphere) tuple returned by `to_deg`. -/
structure DMS where
  deg : ℤ
  min : ℤ
  sec : ℚ
  ref : String
  deriving DecidableEq

/-- Source `to_deg(value, loc)` (lines 32-48): decimal coordinate to degrees,
minutes, seconds and hemisphere symbol. -/
def to_deg (value : ℚ) (loc : String × String) : DMS :=
  let loc_value : String := if value < 0 then loc.1 else if 0 < value then loc.2 else ""
  let abs_value : ℚ := |value|
  let deg : ℤ := pyInt abs_value
  let t1 : ℚ := (abs_value - (deg : ℚ)) * 60
  let mn : ℤ := pyInt t1
  let sec : ℚ := round5 ((t1 - (mn : ℚ)) * 60)
  ⟨deg, mn, sec, loc_value⟩

/-- Source `change_to_rational(number)` (lines 51-57) at the exact-rational level of
abstraction: `Fraction(str(number))` yields the value's fraction in lowest
terms with positive denominator, which is precisely `(q.num, q.den)` of the
Lean rational.  (See `change_to_rational_num` for the model at the level of
the decimal string representation, used for claim C7.) -/
def change_to_rational (q : ℚ) : ℤ × ℤ :=
  (q.num, (q.den : ℤ))

/-- A Python number as `change_to_rational` receives it: either a finite
value given by its canonical decimal string representation `m·10^(-k)`, or a
non-finite float. -/
inductive PyNum where
  | finite (m : ℤ) (k : ℕ)
  | nan
  | inf
  | ninf
  deriving DecidableEq

/-- The value denoted by the canonical decimal representation `m·10^(-k)`. -/
def decValue (m : ℤ) (k : ℕ) : ℚ :=
  (m : ℚ) / (10 : ℚ) ^ k

/-- Source `change_to_rational(number)` (lines 51-57) at the decimal-string level:
`Fraction(str(number))` parses the decimal string and normalises via the gcd
to lowest terms; it raises `ValueError` on `'nan'`/`'inf'`/`'-inf'`
(modelled by `none`). -/
def change_to_rational_num (x : PyNum) : Option (ℤ × ℤ) :=
  match x with
  | .finite m k =>
      let g : ℤ := (Int.gcd m ((10 : ℤ) ^ k) : ℤ)
      some (m / g, (10 : ℤ) ^ k / g)
  | _ => none

/-- Source `gps_ifd(lat, lng, altitude)` (lines 60-86): assemble the GPS metadata
block.  Note line 82 stores the literal `1,` — a Python 1-tuple — as the
altitude reference, and line 83 stores `round(altitude)` with no absolute
value. -/
def gps_ifd (lat lng : ℚ) (altitude : Option ℚ := none) : Dict :=
  let lat_deg := to_deg lat ("S", "N")
  let lng_deg := to_deg lng ("W", "E")
  let exiv_lat := (change_to_rational (lat_deg.deg : ℚ), change_to_rational (lat_deg.min : ℚ),
                   change_to_rational lat_deg.sec)
  let exiv_lng := (change_to_rational (lng_deg.deg : ℚ), change_to_rational (lng_deg.min : ℚ),
                   change_to_rational lng_deg.sec)
  let base : Dict :=
    [(GPSVersionID, ExifVal.vTuple [2, 0, 0, 0]),
     (GPSLatitudeRef, ExifVal.vStr lat_deg.ref),
     (GPSLatitude, ExifVal.vRatTriple exiv_lat.1 exiv_lat.2.1 exiv_lat.2.2),
     (GPSLongitudeRef, ExifVal.vStr lng_deg.ref),
     (GPSLongitude, ExifVal.vRatTriple exiv_lng.1 exiv_lng.2.1 exiv_lng.2.2)]
  match altitude with
  | none => base
  | some alt =>
      dictInsert
        (dictInsert base GPSAltitudeRef (ExifVal.vTuple [1]))
        GPSAltitude
        (ExifVal.vRat (change_to_rational ((pyRound alt : ℤ) : ℚ)).1
                      (change_to_rational ((pyRound alt : ℤ) : ℚ)).2)

/-- Python `s.startswith(pre)`. -/
def pyStartsWith (s pre : String) : Bool :=
  List.isPrefixOf pre.data s.data

/-- Reading `d.get(PROCESSED_TAG_INDEX, b"").decode("ascii")` on a section `d`: the
stored marker bytes as a string, defaulting to the empty string when the tag
is absent.  (The tool only ever stores ASCII bytes at this private tag; a
non-bytes value there would raise in Python and does not occur in any
modelled container.) -/
def markerValue (d : Dict) : String :=
  match dictGet d PROCESSED_TAG_INDEX with
  | some (ExifVal.vBytes s) => s
  | _ => ""

/-- The eligibility condition exactly as lines 108-110 evaluate it: GPS
latitude missing, OR (the marker read FROM THE GPS SECTION has the fixed
prefix AND update mode), OR force mode. -/
def eligibleCode (e : ExifDict) (update force : Bool) : Bool :=
  !(dictMem e.gps GPSLatitude)
    || (pyStartsWith (markerValue e.gps) PROCESSED_TAG_NON_VARIABLE && update)
    || force

/-- Eligibility as claim C1 / spec §4.3 state it: identical to
`eligibleCode` except that the ProcessedMarker is read from the Exif
section — the location where line 129 of the tool writes it.  This
definition follows the claim's words and exists only to be compared with
`eligibleCode`. -/
def eligibleSpec (e : ExifDict) (update force : Bool) : Bool :=
  !(dictMem e.gps GPSLatitude)
    || (pyStartsWith (markerValue e.exifSec) PROCESSED_TAG_NON_VARIABLE && update)
    || force

/-- A predicted coordinate (latitude, longitude).  The accompanying
probabilities returned by the predictor are never consulted by the tool. -/
abbrev Coord := ℚ × ℚ

/-- The loop of lines 116-121 over a list of indices: look up each index in
the prediction list (an out-of-range index raises `IndexError`, modelled by
`Except.error ()`), compare its distance to the top prediction, and fail the
check (`ok false`) as soon as one exceeds `max_distance`. -/
def sanityLoop (dist : Coord → Coord → ℚ) (preds : List Coord) (top : Coord)
    (max_distance : ℚ) : List ℕ → Except Unit Bool
  | [] => .ok true
  | i :: rest =>
    match preds[i]? with
    | none => .error ()
    | some p =>
      if dist p top > max_distance then .ok false
      else sanityLoop dist preds top max_distance rest

/-- The sanity check of lines 113-121: take prediction 0 as the candidate
(`error` if even that index is out of range), then run the loop over
`range(1, top_k)`.  `ok (some top)` = accepted candidate, `ok none` =
rejected (the `return False` of line 121), `error` = `IndexError`. -/
def sanityCheck (dist : Coord → Coord → ℚ) (preds : List Coord)
    (top_k : ℕ) (max_distance : ℚ) : Except Unit (Option Coord) :=
  match preds[0]? with
  | none => .error ()
  | some top =>
    match sanityLoop dist preds top max_distance (List.range' 1 (top_k - 1)) with
    | .error e => .error e
    | .ok true => .ok (some top)
    | .ok false => .ok none

/-- Fault injection for the commit sequence of lines 132-138: `piexif.dump`
raises (before the temporary file exists), `img.save` raises (after the
temporary file was created with `delete=False`), `os.replace` raises, or
everything succeeds. -/
inductive FailAt where
  | dump
  | save
  | rename
  | nofail
  deriving DecidableEq

/-- The bytes of an image file on disk: an opaque pixel payload plus the
embedded metadata container (`none` when `"exif" not in img.info`). -/
structure FileBytes where
  payload : ℕ
  exif : Option ExifDict
  deriving DecidableEq

/-- Lines 102-105: parse the embedded container, or build an empty one. -/
def loadExif (fb : FileBytes) : ExifDict :=
  fb.exif.getD emptyExif

/-- The observable outcome of `update_exif_date` on one image: the boolean
result, the bytes sitting at the image path afterwards, and whether a
temporary file was left behind in the directory. -/
structure UpdateOut where
  res : Bool
  file : FileBytes
  tmpLeft : Bool
  deriving DecidableEq

/-- Source `update_exif_date(image_path, dry_run, update, force, max_distance,
top_k)` (lines 88-146).  `dist` stands for the geodesic `distance` primitive
(line 27), `preds` for what `model.predict` returns for this image, `failAt`
injects a failure into the commit sequence, and `fb` is the file at
`image_path`.  Every exception inside the `try` of line 99 is caught at line
144 and turned into the `return False` of line 146. -/
def update_exif_date (dist : Coord → Coord → ℚ) (preds : List Coord) (failAt : FailAt)
    (fb : FileBytes) (dry_run : Bool := false) (update : Bool := false)
    (force : Bool := false) (max_distance : ℚ := 20) (top_k : ℕ := 5) : UpdateOut :=
  let exif_dict := loadExif fb
  if eligibleCode exif_dict update force then
    match sanityCheck dist preds top_k max_distance with
    | .error _ => ⟨false, fb, false⟩
    | .ok none => ⟨false, fb, false⟩
    | .ok (some top) =>
      if dry_run then ⟨true, fb, false⟩
      else
        match failAt with
        | .dump => ⟨false, fb, false⟩
        | .save => ⟨false, fb, true⟩
        | .rename => ⟨false, fb, true⟩
        | .nofail =>
          ⟨true,
           ⟨fb.payload,
            some ⟨exif_dict.zeroth, exif_dict.first,
                  dictInsert exif_dict.exifSec PROCESSED_TAG_INDEX (ExifVal.vBytes PROCESSED_TAG),
                  dictUpdate exif_dict.gps (gps_ifd top.1 top.2 none),
                  exif_dict.interop⟩⟩,
           false⟩
  else ⟨false, fb, false⟩

/-- Lowercasing a string, `s.lower()`. -/
def strLower (s : String) : String :=
  ⟨s.data.map Char.toLower⟩

/-- The characters after the LAST dot of a name, `none` when there is no
dot. -/
def afterLastDot : List Char → Option (List Char)
  | [] => none
  | c :: rest =>
    match afterLastDot rest with
    | some s => some s
    | none => if c = '.' then some rest else none

/-- Python `pathlib.Path(name).suffix`: the final `".ext"` component, or `""` when
the last dot is the first character (hidden file) or the last character. -/
def pySuffix (name : String) : String :=
  match afterLastDot name.data with
  | none => ""
  | some rest =>
    if 0 < name.data.length - rest.length - 1 && !rest.isEmpty
    then ⟨'.' :: rest⟩ else ""

/-- The extension whitelist of lines 183-190. -/
def imageSuffixes : List String :=
  [".jpg", ".jpeg", ".tif", ".webp", ".tiff", ".png"]

/-- The file filter of lines 183-191. -/
def isImageName (n : String) : Bool :=
  imageSuffixes.contains (strLower (pySuffix n))

/-- One directory yielded by `Path(directory).walk()`: its path and the
files in it. -/
structure DirEntry where
  path : String
  files : List (String × FileBytes)
  deriving DecidableEq

/-- The inner loop of lines 182-196 over one directory: process every file
whose suffix is whitelisted (each through `update_exif_date` with
`dry_run = not wet_run`), and record whether any file reported `updated`.
The `sorted(...)` of line 182 only fixes the processing order, which no
per-file outcome depends on, so the files are processed in list order. -/
def processDir (dist : Coord → Coord → ℚ) (predsOf : String → List Coord)
    (failAt : String → FailAt) (wet_run update force : Bool)
    (top_k : ℕ) (max_distance : ℚ) (d : DirEntry) : DirEntry × Bool :=
  let outs := d.files.map (fun nf =>
    if isImageName nf.1 then
      let o := update_exif_date dist (predsOf nf.1) (failAt nf.1) nf.2
                 (!wet_run) update force max_distance top_k
      ((nf.1, o.file), o.res)
    else (nf, false))
  (⟨d.path, outs.map Prod.fst⟩, outs.any Prod.snd)

/-- Source `process_directory(directory, verbosity, wet_run, update, force, top_k,
max_distance)` (lines 148-201), with the source's default arguments.
Logging, the progress bar and the global model handle are orchestration
noise with no data effect; the walk is the list `dirs`.  Returns the final
state of every directory and the `updated_dirs` that lines 198-201 print. -/
def process_directory (dist : Coord → Coord → ℚ) (predsOf : String → List Coord)
    (failAt : String → FailAt) (dirs : List DirEntry)
    (wet_run : Bool := false) (update : Bool := false) (force : Bool := false)
    (top_k : ℕ := 5) (max_distance : ℚ := 20) : List DirEntry × List String :=
  let rs := dirs.map (processDir dist predsOf failAt wet_run update force top_k max_distance)
  (rs.map Prod.fst, (rs.filter (fun r => r.2)).map (fun r => r.1.path))

-- Concrete fixtures used by the witnesses and counterexamples below.

/-- A distance primitive that reports every pair as coincident. -/
def d0 : Coord → Coord → ℚ := fun _ _ => 0

/-- Five identical predictions: the sanity check accepts them at any bound. -/
def preds0 : List Coord := [(0, 0), (0, 0), (0, 0), (0, 0), (0, 0)]

/-- A file with no embedded metadata at all. -/
def fb0 : FileBytes := ⟨0, none⟩

/-- A container previously annotated by this very tool: the ProcessedMarker
sits in the Exif section (where line 129 put it) and GPS latitude data is
present. -/
def e1 : ExifDict :=
  ⟨[], [],
   [(PROCESSED_TAG_INDEX, ExifVal.vBytes PROCESSED_TAG)],
   [(GPSLatitude, ExifVal.vRatTriple (1, 1) (1, 1) (1, 1))],
   []⟩

/-- The image file carrying `e1`. -/
def fb1 : FileBytes := ⟨7, some e1⟩

/-- A container whose GPS section carries an extra tag (7, `GPSTimeStamp`)
that the newly built block never mentions. -/
def eX : ExifDict :=
  ⟨[], [], [],
   [(GPSLatitude, ExifVal.vRatTriple (1, 1) (1, 1) (1, 1)),
    (7, ExifVal.vRat 99 1)],
   []⟩

/-- The image file carrying `eX`. -/
def fbX : FileBytes := ⟨3, some eX⟩

/-- A distance primitive that answers with the first coordinate of its first
argument: lets a fixture place secondary predictions at an exact distance. -/
def dW : Coord → Coord → ℚ := fun p _ => p.1

/-- Predictions whose four secondaries sit at distance exactly 20 (under
`dW`) from the top candidate. -/
def predsW : List Coord := [(0, 0), (20, 0), (20, 0), (20, 0), (20, 0)]

/-- A one-directory walk holding a single jpg with no metadata. -/
def dirs1 : List DirEntry := [⟨"d", [("a.jpg", fb0)]⟩]

lemma dictGet_dictInsert (d : Dict) (k : ℕ) (v : ExifVal) (j : ℕ) :
    dictGet (dictInsert d k v) j = if j = k then some v else dictGet d j := by
  induction d with
  | nil =>
    by_cases h : j = k
    · subst h; simp [dictInsert, dictGet]
    · simp [dictInsert, dictGet, h, Ne.symm h]
  | cons kv rest ih =>
    obtain ⟨k₁, v₁⟩ := kv
    by_cases h1 : k₁ = k
    · subst h1
      by_cases h2 : j = k₁
      · subst h2; simp [dictInsert, dictGet]
      · simp [dictInsert, dictGet, h2, Ne.symm h2]
    · by_cases h2 : j = k₁
      · subst h2
        simp [dictInsert, dictGet, h1]
      · simp [dictInsert, dictGet, h1, Ne.symm h2, h2, ih]

lemma dictGet_eq_none_of_not_mem (d : Dict) (k : ℕ) (h : k ∉ d.map Prod.fst) :
    dictGet d k = none := by
  induction d with
  | nil => rfl
  | cons kv rest ih =>
    simp only [List.map_cons, List.mem_cons] at h
    push_neg at h
    simp [dictGet, Ne.symm h.1, ih h.2]

/-- Lookup in `d.update(new)` when the keys of `new` are pairwise distinct:
a binding of `new` wins, otherwise the old binding survives. -/
lemma dictGet_dictUpdate (d new : Dict) (k : ℕ) (hnd : (new.map Prod.fst).Nodup) :
    dictGet (dictUpdate d new) k =
      (dictGet new k).orElse (fun _ => dictGet d k) := by
  induction new generalizing d with
  | nil => simp [dictUpdate, dictGet, Option.orElse]
  | cons kv rest ih =>
    obtain ⟨k₀, v₀⟩ := kv
    simp only [List.map_cons, List.nodup_cons] at hnd
    have step : dictUpdate d ((k₀, v₀) :: rest) = dictUpdate (dictInsert d k₀ v₀) rest := rfl
    rw [step, ih _ hnd.2]
    by_cases hk : k = k₀
    · subst hk
      have hrest : dictGet rest k = none :=
        dictGet_eq_none_of_not_mem rest k hnd.1
      simp [dictGet, hrest, dictGet_dictInsert, Option.orElse]
    · simp [dictGet, Ne.symm hk, hk, dictGet_dictInsert, Option.orElse]

/-- If the loop finishes with `ok true`, every index it visited was in
range. -/
lemma sanityLoop_ok_true_isSome (dist : Coord → Coord → ℚ) (preds : List Coord)
    (top : Coord) (maxD : ℚ) :
    ∀ l : List ℕ, sanityLoop dist preds top maxD l = .ok true →
      ∀ i ∈ l, (preds[i]?).isSome := by
  intro l
  induction l with
  | nil => intro _ i hi; cases hi
  | cons j rest ih =>
    intro h i hi
    rcases List.mem_cons.mp hi with hij | hir
    · subst hij
      cases hj : preds[i]? with
      | none => simp [sanityLoop, hj] at h
      | some p => simp
    · cases hj : preds[j]? with
      | none => simp [sanityLoop, hj] at h
      | some p =>
        simp only [sanityLoop, hj] at h
        by_cases hd : dist p top > maxD
        · simp [hd] at h
        · exact ih (by simpa [hd] using h) i hir

/-- The loop answers `ok true` exactly when every visited (in-range) entry
is within the bound; in-range visiting is guaranteed by `hl`. -/
lemma sanityLoop_ok_true_iff (dist : Coord → Coord → ℚ) (preds : List Coord)
    (top : Coord) (maxD : ℚ) :
    ∀ l : List ℕ, (∀ i ∈ l, (preds[i]?).isSome) →
      (sanityLoop dist preds top maxD l = .ok true ↔
        ∀ i ∈ l, ∀ p, preds[i]? = some p → dist p top ≤ maxD) := by
  intro l
  induction l with
  | nil => intro _; simp [sanityLoop]
  | cons j rest ih =>
    intro hl
    have hj : (preds[j]?).isSome := hl j (List.mem_cons_self j rest)
    obtain ⟨p, hp⟩ := Option.isSome_iff_exists.mp hj
    have hrest : ∀ i ∈ rest, (preds[i]?).isSome :=
      fun i hi => hl i (List.mem_cons_of_mem j hi)
    constructor
    · intro h i hi q hq
      simp only [sanityLoop, hp] at h
      by_cases hd : dist p top > maxD
      · simp [hd] at h
      · rcases List.mem_cons.mp hi with hij | hir
        · subst hij
          rw [hq] at hp
          cases hp
          push_neg at hd
          exact hd
        · exact ((ih hrest).mp (by simpa [hd] using h)) i hir q hq
    · intro h
      simp only [sanityLoop, hp]
      have hd : ¬ dist p top > maxD := by
        push_neg
        exact h j (List.mem_cons_self j rest) p hp
      simp only [hd, if_false]
      exact (ih hrest).mpr (fun i hi q hq => h i (List.mem_cons_of_mem j hi) q hq)

/-- If every in-range visited entry is within the bound and some visited
index is out of range, the loop raises. -/
lemma sanityLoop_error_of (dist : Coord → Coord → ℚ) (preds : List Coord)
    (top : Coord) (maxD : ℚ) :
    ∀ l : List ℕ, (∀ i ∈ l, ∀ p, preds[i]? = some p → dist p top ≤ maxD) →
      (∃ i ∈ l, preds[i]? = none) → sanityLoop dist preds top maxD l = .error () := by
  intro l
  induction l with
  | nil => rintro _ ⟨i, hi, _⟩; cases hi
  | cons j rest ih =>
    rintro h ⟨i, hi, hnone⟩
    cases hj : preds[j]? with
    | none => simp [sanityLoop, hj]
    | some p =>
      have hd : ¬ dist p top > maxD := by
        push_neg
        exact h j (List.mem_cons_self j rest) p hj
      have hir : i ∈ rest := by
        rcases List.mem_cons.mp hi with hij | hir
        · subst hij; rw [hj] at hnone; cases hnone
        · exact hir
      simp only [sanityLoop, hj, hd, if_false]
      exact ih (fun i hi q hq => h i (List.mem_cons_of_mem j hi) q hq) ⟨i, hir, hnone⟩

/-- An optional list lookup succeeds exactly on in-range indices. -/
lemma isSome_getOpt {α : Type} (l : List α) (i : ℕ) :
    (l[i]?).isSome = true ↔ i < l.length := by
  rw [Option.isSome_iff_exists]
  constructor
  · rintro ⟨a, ha⟩; exact (List.getElem?_eq_some.mp ha).1
  · intro h; exact ⟨l[i], List.getElem?_eq_getElem h⟩

/-- When every index the loop will visit is in range, the loop cannot
raise. -/
lemma sanityLoop_ne_error (dist : Coord → Coord → ℚ) (preds : List Coord)
    (top : Coord) (maxD : ℚ) :
    ∀ l : List ℕ, (∀ i ∈ l, (preds[i]?).isSome) →
      ∃ b, sanityLoop dist preds top maxD l = .ok b := by
  intro l
  induction l with
  | nil => intro _; exact ⟨true, rfl⟩
  | cons j rest ih =>
    intro hl
    obtain ⟨p, hp⟩ := Option.isSome_iff_exists.mp (hl j (List.mem_cons_self j rest))
    by_cases hd : dist p top > maxD
    · exact ⟨false, by simp [sanityLoop, hp, hd]⟩
    · obtain ⟨b, hb⟩ := ih (fun i hi => hl i (List.mem_cons_of_mem j hi))
      exact ⟨b, by simp [sanityLoop, hp, hd, hb]⟩

/-- Core of the sanity check: with a full-length prediction list, the top
candidate is accepted exactly when every secondary prediction is within the
distance bound of it. -/
lemma sanityCheck_eq_ok_some_iff (dist : Coord → Coord → ℚ) (preds : List Coord)
    (topK : ℕ) (maxD : ℚ) (top : Coord)
    (hlen : preds.length = topK) (htop : preds[0]? = some top) :
    (sanityCheck dist preds topK maxD = .ok (some top) ↔
      ∀ i, 1 ≤ i → i < topK → ∀ p, preds[i]? = some p → dist p top ≤ maxD) := by
  have hlen0 : 0 < preds.length := by
    rcases preds with _ | ⟨a, as⟩
    · simp at htop
    · simp
  have hK1 : 1 ≤ topK := by omega
  have hmem : ∀ i, i ∈ List.range' 1 (topK - 1) ↔ (1 ≤ i ∧ i < topK) := by
    intro i; rw [List.mem_range'_1]; omega
  have hl : ∀ i ∈ List.range' 1 (topK - 1), (preds[i]?).isSome := by
    intro i hi
    rw [isSome_getOpt]
    have := (hmem i).mp hi
    omega
  have hiff := sanityLoop_ok_true_iff dist preds top maxD (List.range' 1 (topK - 1)) hl
  obtain ⟨b, hb⟩ := sanityLoop_ne_error dist preds top maxD (List.range' 1 (topK - 1)) hl
  cases b with
  | true =>
    simp only [sanityCheck, htop, hb]
    constructor
    · intro _ i h1 h2 p hp
      exact (hiff.mp hb) i ((hmem i).mpr ⟨h1, h2⟩) p hp
    · intro _; trivial
  | false =>
    simp only [sanityCheck, htop, hb]
    constructor
    · intro h; cases h
    · intro hR
      have : sanityLoop dist preds top maxD (List.range' 1 (topK - 1)) = .ok true :=
        hiff.mpr (fun i hi p hp =>
          hR i ((hmem i).mp hi).1 ((hmem i).mp hi).2 p hp)
      rw [hb] at this
      cases this

/-- A prediction list shorter than `top_k` never yields an accepted
candidate: the check raises or rejects. -/
lemma sanityCheck_short (dist : Coord → Coord → ℚ) (preds : List Coord)
    (topK : ℕ) (maxD : ℚ) (h : preds.length < topK) :
    sanityCheck dist preds topK maxD = .error () ∨
    sanityCheck dist preds topK maxD = .ok none := by
  cases h0 : preds[0]? with
  | none => left; simp [sanityCheck, h0]
  | some top =>
    have hlen0 : 0 < preds.length := by
      rcases preds with _ | ⟨a, as⟩
      · simp at h0
      · simp
    cases hr : sanityLoop dist preds top maxD (List.range' 1 (topK - 1)) with
    | error e => left; cases e; simp [sanityCheck, h0, hr]
    | ok b =>
      cases b with
      | false => right; simp [sanityCheck, h0, hr]
      | true =>
        exfalso
        have hin : topK - 1 ∈ List.range' 1 (topK - 1) := by
          rw [List.mem_range'_1]; omega
        have := sanityLoop_ok_true_isSome dist preds top maxD _ hr (topK - 1) hin
        rw [isSome_getOpt] at this
        omega

/-- A prediction list shorter than `top_k` whose in-range secondaries are
all within the bound makes the check raise `IndexError`. -/
lemma sanityCheck_short_error (dist : Coord → Coord → ℚ) (preds : List Coord)
    (topK : ℕ) (maxD : ℚ) (h : preds.length < topK)
    (hd : ∀ top, preds[0]? = some top →
      ∀ i p, 1 ≤ i → preds[i]? = some p → dist p top ≤ maxD) :
    sanityCheck dist preds topK maxD = .error () := by
  cases h0 : preds[0]? with
  | none => simp [sanityCheck, h0]
  | some top =>
    have hlen0 : 0 < preds.length := by
      rcases preds with _ | ⟨a, as⟩
      · simp at h0
      · simp
    have herr := sanityLoop_error_of dist preds top maxD (List.range' 1 (topK - 1))
      (fun i hi p hp => hd top h0 i p (List.mem_range'_1.mp hi).1 hp)
      ⟨preds.length, by rw [List.mem_range'_1]; omega, by simp⟩
    simp [sanityCheck, h0, herr]

/-- Rejection or IndexError leaves the file untouched and reports `False`,
in wet and dry runs alike. -/
lemma update_not_accepted (dist : Coord → Coord → ℚ) (preds : List Coord)
    (fa : FailAt) (fb : FileBytes) (dr u f : Bool) (maxD : ℚ) (topK : ℕ)
    (hs : sanityCheck dist preds topK maxD = .error () ∨
          sanityCheck dist preds topK maxD = .ok none) :
    update_exif_date dist preds fa fb dr u f maxD topK = ⟨false, fb, false⟩ := by
  unfold update_exif_date
  rcases hs with hs | hs <;> cases he : eligibleCode (loadExif fb) u f <;> simp [he, hs]

/-- Any injected commit failure, in a wet run, reports `False` and leaves
the original file bytes untouched. -/
lemma update_fail_file (dist : Coord → Coord → ℚ) (preds : List Coord)
    (fb : FileBytes) (u f : Bool) (maxD : ℚ) (topK : ℕ) (fa : FailAt)
    (h : fa ≠ FailAt.nofail) :
    (update_exif_date dist preds fa fb false u f maxD topK).res = false ∧
    (update_exif_date dist preds fa fb false u f maxD topK).file = fb := by
  unfold update_exif_date
  cases he : eligibleCode (loadExif fb) u f
  · simp [he]
  · cases hs : sanityCheck dist preds topK maxD with
    | error e => simp [he, hs]
    | ok o =>
      cases o with
      | none => simp [he, hs]
      | some top =>
        cases fa with
        | nofail => exact absurd rfl h
        | dump => simp [he, hs]
        | save => simp [he, hs]
        | rename => simp [he, hs]

/-- A dry run never changes the file and never leaves a temporary file. -/
lemma update_dry_shape (dist : Coord → Coord → ℚ) (preds : List Coord)
    (fa : FailAt) (fb : FileBytes) (u f : Bool) (maxD : ℚ) (topK : ℕ) :
    (update_exif_date dist preds fa fb true u f maxD topK).file = fb ∧
    (update_exif_date dist preds fa fb true u f maxD topK).tmpLeft = false := by
  unfold update_exif_date
  cases he : eligibleCode (loadExif fb) u f
  · simp [he]
  · cases hs : sanityCheck dist preds topK maxD with
    | error e => simp [he, hs]
    | ok o =>
      cases o with
      | none => simp [he, hs]
      | some top => simp [he, hs]

/-- A dry run on an eligible image with an accepted candidate reports
`True` with no disk effect. -/
lemma update_dry_accepted (dist : Coord → Coord → ℚ) (preds : List Coord)
    (fa : FailAt) (fb : FileBytes) (u f : Bool) (maxD : ℚ) (topK : ℕ) (top : Coord)
    (he : eligibleCode (loadExif fb) u f = true)
    (hs : sanityCheck dist preds topK maxD = .ok (some top)) :
    update_exif_date dist preds fa fb true u f maxD topK = ⟨true, fb, false⟩ := by
  unfold update_exif_date; simp [he, hs]

/-- The successful commit: the container written to disk, spelled out. -/
lemma update_commit (dist : Coord → Coord → ℚ) (preds : List Coord)
    (fb : FileBytes) (u f : Bool) (maxD : ℚ) (topK : ℕ) (top : Coord)
    (he : eligibleCode (loadExif fb) u f = true)
    (hs : sanityCheck dist preds topK maxD = .ok (some top)) :
    update_exif_date dist preds .nofail fb false u f maxD topK =
      ⟨true,
       ⟨fb.payload,
        some ⟨(loadExif fb).zeroth, (loadExif fb).first,
              dictInsert (loadExif fb).exifSec PROCESSED_TAG_INDEX
                (ExifVal.vBytes PROCESSED_TAG),
              dictUpdate (loadExif fb).gps (gps_ifd top.1 top.2 none),
              (loadExif fb).interop⟩⟩,
       false⟩ := by
  unfold update_exif_date; simp [he, hs]

/-- Claim C1 (code_bug evidence).  A container previously annotated by this
tool — ProcessedMarker in the Exif section, GPS latitude present — is
eligible for re-annotation under update mode according to the claim
(`eligibleSpec`), but the code reads the marker from the GPS section
(line 109) while writing it to the Exif section (line 129), so it skips the
image with no mutation. -/
theorem eligibility_marker_section_mismatch :
    eligibleSpec e1 true false = true ∧
    eligibleCode e1 true false = false ∧
    update_exif_date d0 preds0 FailAt.nofail fb1 false true false 20 5 =
      ⟨false, fb1, false⟩ :=
  ⟨by decide, by decide, by decide⟩

/-- Claim C2 (amended).  Any failure injected into the commit sequence of a
wet run yields a per-file `False` result with the original bytes untouched;
a serialization failure (before the temporary file exists) leaves no
temporary file; and a directory pass still processes every file. -/
theorem commit_failure_preserves_original (dist : Coord → Coord → ℚ)
    (preds : List Coord) (fb : FileBytes) (u f : Bool) (maxD : ℚ) (topK : ℕ) :
    (∀ fa : FailAt, fa ≠ FailAt.nofail →
       (update_exif_date dist preds fa fb false u f maxD topK).res = false ∧
       (update_exif_date dist preds fa fb false u f maxD topK).file = fb) ∧
    (update_exif_date dist preds FailAt.dump fb false u f maxD topK).tmpLeft = false ∧
    (∀ (predsOf : String → List Coord) (failAt : String → FailAt) (w uu ff : Bool)
       (tk : ℕ) (md : ℚ) (d : DirEntry),
       ((processDir dist predsOf failAt w uu ff tk md d).1).files.length =
         d.files.length) := by
  refine ⟨fun fa h => update_fail_file dist preds fb u f maxD topK fa h, ?_, ?_⟩
  · unfold update_exif_date
    cases he : eligibleCode (loadExif fb) u f
    · simp [he]
    · cases hs : sanityCheck dist preds topK maxD with
      | error e => simp [he, hs]
      | ok o =>
        cases o with
        | none => simp [he, hs]
        | some top => simp [he, hs]
  · intro predsOf failAt w uu ff tk md d
    unfold processDir
    simp

/-- Witness for `commit_failure_preserves_original` at a concrete failing
save on an eligible image. -/
theorem commit_failure_preserves_original_w :
    (update_exif_date d0 preds0 FailAt.save fb0 false false false 20 5).res = false ∧
    (update_exif_date d0 preds0 FailAt.save fb0 false false false 20 5).file = fb0 :=
  (commit_failure_preserves_original d0 preds0 fb0 false false 20 5).1
    FailAt.save (by decide)

/-- Claim C2 counterexample: when `img.save` fails inside the
`NamedTemporaryFile(delete=False)` block, the temporary file is NOT
discarded — it is left behind in the directory. -/
theorem commit_failure_orphan_cex :
    (update_exif_date d0 preds0 FailAt.save fb0 false false false 20 5).tmpLeft = true := by
  decide

/-- Claim C8.  With dry-run enabled the file bytes are never touched and no
temporary file is created; on an eligible image whose candidate passes the
sanity check, the function reports `True` (what would have been written). -/
theorem dry_run_no_mutation (dist : Coord → Coord → ℚ) (preds : List Coord)
    (fa : FailAt) (fb : FileBytes) (u f : Bool) (maxD : ℚ) (topK : ℕ) :
    ((update_exif_date dist preds fa fb true u f maxD topK).file = fb ∧
     (update_exif_date dist preds fa fb true u f maxD topK).tmpLeft = false) ∧
    (∀ top : Coord, eligibleCode (loadExif fb) u f = true →
      sanityCheck dist preds topK maxD = .ok (some top) →
      (update_exif_date dist preds fa fb true u f maxD topK).res = true) :=
  ⟨update_dry_shape dist preds fa fb u f maxD topK,
   fun top he hs => by
     rw [update_dry_accepted dist preds fa fb u f maxD topK top he hs]⟩

/-- Witness for `dry_run_no_mutation` on a concrete eligible image. -/
theorem dry_run_no_mutation_w :
    (update_exif_date d0 preds0 FailAt.nofail fb0 true false false 20 5).file = fb0 ∧
    (update_exif_date d0 preds0 FailAt.nofail fb0 true false false 20 5).res = true := by
  have h := dry_run_no_mutation d0 preds0 FailAt.nofail fb0 false false 20 5
  exact ⟨h.1.1, h.2 (0, 0) (by decide) (by rfl)⟩

/-- Claim C9 (amended).  A prediction list shorter than `top_k` always ends
in a `False` result with no file mutation; when its in-range secondaries
are all within the distance bound (in particular whenever nothing rejects
first), the check ends in an out-of-range `IndexError`. -/
theorem short_prediction_set (dist : Coord → Coord → ℚ) (preds : List Coord)
    (fa : FailAt) (fb : FileBytes) (dr u f : Bool) (maxD : ℚ) (topK : ℕ)
    (hlen : preds.length < topK) :
    ((update_exif_date dist preds fa fb dr u f maxD topK).res = false ∧
     (update_exif_date dist preds fa fb dr u f maxD topK).file = fb ∧
     (update_exif_date dist preds fa fb dr u f maxD topK).tmpLeft = false) ∧
    ((∀ top, preds[0]? = some top →
        ∀ i p, 1 ≤ i → preds[i]? = some p → dist p top ≤ maxD) →
      sanityCheck dist preds topK maxD = .error ()) := by
  constructor
  · have h := update_not_accepted dist preds fa fb dr u f maxD topK
      (sanityCheck_short dist preds topK maxD hlen)
    rw [h]
    exact ⟨rfl, rfl, rfl⟩
  · exact fun hd => sanityCheck_short_error dist preds topK maxD hlen hd

/-- Witness for `short_prediction_set`: a single prediction with
`top_k = 5`. -/
theorem short_prediction_set_w :
    (update_exif_date d0 [((0 : ℚ), (0 : ℚ))] FailAt.nofail fb0 false false false 20 5).res
      = false ∧
    sanityCheck d0 [((0 : ℚ), (0 : ℚ))] 5 20 = Except.error () := by
  have h := short_prediction_set d0 [((0 : ℚ), (0 : ℚ))] FailAt.nofail fb0
    false false false 20 5 (by decide)
  refine ⟨h.1.1, h.2 ?_⟩
  intro top h0 i p h1 hp
  rcases i with _ | i
  · omega
  · rw [List.getElem?_cons_succ] at hp
    simp at hp

/-- Claim C9 counterexample: a prediction list of length 2 with `top_k = 5`
does NOT raise — the distance test rejects it at index 1 first. -/
theorem short_set_early_reject_cex :
    sanityCheck (fun _ _ => 1000) [((0 : ℚ), (0 : ℚ)), (1, 1)] 5 20 = Except.ok none :=
  rfl

/-- Claim C3.  For a prediction list of exactly `top_k` entries, the top
candidate is accepted if and only if every one of the remaining `top_k − 1`
predictions lies within `max_distance` of it (so a secondary at exactly the
bound is accepted and one strictly beyond it is not); and a rejection leaves
the file untouched with a `False` result. -/
theorem sanity_check_accepts_iff (dist : Coord → Coord → ℚ) (preds : List Coord)
    (topK : ℕ) (maxD : ℚ) (top : Coord) (fb : FileBytes) (u f : Bool) (fa : FailAt)
    (hlen : preds.length = topK) (htop : preds[0]? = some top) :
    (sanityCheck dist preds topK maxD = .ok (some top) ↔
      ∀ i, 1 ≤ i → i < topK → ∀ p, preds[i]? = some p → dist p top ≤ maxD) ∧
    (sanityCheck dist preds topK maxD = .ok none →
      update_exif_date dist preds fa fb false u f maxD topK = ⟨false, fb, false⟩) :=
  ⟨sanityCheck_eq_ok_some_iff dist preds topK maxD top hlen htop,
   fun hs => update_not_accepted dist preds fa fb false u f maxD topK (Or.inr hs)⟩

/-- Witness for `sanity_check_accepts_iff` at the boundary: all four
secondaries sit at distance exactly `max_distance = 20` and the candidate is
accepted. -/
theorem sanity_check_accepts_iff_w :
    sanityCheck dW predsW 5 20 = Except.ok (some (0, 0)) := by
  have h := sanity_check_accepts_iff dW predsW 5 20 (0, 0) fb0 false false
    FailAt.nofail (by decide) (by decide)
  refine h.1.mpr ?_
  intro i h1 h5 p hp
  interval_cases i <;>
    (simp only [predsW, List.getElem?_cons_succ, List.getElem?_cons_zero,
       Option.some.injEq] at hp
     rw [← hp]
     norm_num [dW])

/-- Claim C5 (amended).  On a successful commit the GPS section of the
container written to disk is the previous GPS section `dict.update`d with
the freshly built block: tags of the new block win, and previous GPS tags
absent from the new block survive. -/
theorem gps_section_merge (dist : Coord → Coord → ℚ) (preds : List Coord)
    (fb : FileBytes) (u f : Bool) (maxD : ℚ) (topK : ℕ) (top : Coord)
    (he : eligibleCode (loadExif fb) u f = true)
    (hs : sanityCheck dist preds topK maxD = .ok (some top)) :
    (update_exif_date dist preds FailAt.nofail fb false u f maxD topK).res = true ∧
    ∀ t, dictGet (((update_exif_date dist preds FailAt.nofail fb false u f maxD
            topK).file.exif.getD emptyExif).gps) t
        = (dictGet (gps_ifd top.1 top.2 none) t).orElse
            (fun _ => dictGet (loadExif fb).gps t) := by
  rw [update_commit dist preds fb u f maxD topK top he hs]
  refine ⟨rfl, fun t => ?_⟩
  show dictGet (dictUpdate (loadExif fb).gps (gps_ifd top.1 top.2 none)) t = _
  apply dictGet_dictUpdate
  have hkeys : (gps_ifd top.1 top.2 none).map Prod.fst =
      [GPSVersionID, GPSLatitudeRef, GPSLatitude, GPSLongitudeRef, GPSLongitude] := rfl
  rw [hkeys]
  decide

/-- Witness for `gps_section_merge` on a concrete commit. -/
theorem gps_section_merge_w :
    dictGet (((update_exif_date d0 preds0 FailAt.nofail fb0 false false false 20
        5).file.exif.getD emptyExif).gps) GPSLatitude
      = (dictGet (gps_ifd 0 0 none) GPSLatitude).orElse
          (fun _ => dictGet (loadExif fb0).gps GPSLatitude) :=
  (gps_section_merge d0 preds0 fb0 false false 20 5 (0, 0) (by decide) (by rfl)).2
    GPSLatitude

/-- Claim C5 counterexample: under force, a pre-existing GPS tag (7,
`GPSTimeStamp`) that the new block does not mention survives in the
committed container, so the committed GPS section is NOT equal to the newly
built block. -/
theorem gps_section_merge_cex :
    ((update_exif_date d0 preds0 FailAt.nofail fbX false false true 20
        5).file.exif.getD emptyExif).gps ≠ gps_ifd 0 0 none ∧
    dictGet ((update_exif_date d0 preds0 FailAt.nofail fbX false false true 20
        5).file.exif.getD emptyExif).gps 7 = some (ExifVal.vRat 99 1) ∧
    dictGet (gps_ifd 0 0 none) 7 = none :=
  ⟨by decide, by decide, by decide⟩


/-- Rounding to the nearest integer (ties to even) moves the value by at
most one half. -/
lemma pyRound_sub_abs (q : ℚ) : |(pyRound q : ℚ) - q| ≤ 1 / 2 := by
  have h0 : (0 : ℚ) ≤ q - (⌊q⌋ : ℚ) := by
    have := Int.floor_le q; linarith
  have h1 : q - (⌊q⌋ : ℚ) < 1 := by
    have := Int.lt_floor_add_one q; linarith
  unfold pyRound
  split_ifs with ha hb hc <;>
    (rw [abs_le]; push_cast; constructor <;> linarith)

/-- Rounding `round(x, 5)` moves the value by at most `5·10⁻⁶`. -/
lemma round5_err (q : ℚ) : |round5 q - q| ≤ 1 / 200000 := by
  have h : round5 q - q = ((pyRound (q * 100000) : ℚ) - q * 100000) / 100000 := by
    unfold round5; ring
  have hb := pyRound_sub_abs (q * 100000)
  rw [h, abs_div, abs_of_pos (show (0 : ℚ) < 100000 by norm_num)]
  rw [div_le_div_iff₀ (by norm_num) (by norm_num)]
  linarith

/-- Applying `Fraction(str(int))` gives `(int, 1)`. -/
lemma change_to_rational_int (n : ℤ) : change_to_rational (n : ℚ) = (n, 1) := by
  simp [change_to_rational, Rat.num_intCast, Rat.den_intCast]

/-- Evaluating `round(-5)` gives `-5`. -/
lemma pyRound_neg_five : pyRound (-5 : ℚ) = -5 := by
  have hf : ⌊(-5 : ℚ)⌋ = -5 := by norm_num
  unfold pyRound
  rw [hf]
  norm_num

/-- Claim C4 (code_bug evidence).  The altitude fields are present exactly
when an altitude is supplied — but when present, the altitude reference is
the constant 1-tuple `(1,)` (line 82's stray trailing comma; "below sea
level" regardless of the altitude's sign), and the altitude field holds the
signed `round(altitude)`, not its magnitude. -/
theorem gps_ifd_altitude_encoding :
    (∀ lat lng : ℚ,
       dictGet (gps_ifd lat lng none) GPSAltitudeRef = none ∧
       dictGet (gps_ifd lat lng none) GPSAltitude = none) ∧
    (∀ lat lng alt : ℚ,
       dictGet (gps_ifd lat lng (some alt)) GPSAltitudeRef =
         some (ExifVal.vTuple [1]) ∧
       dictGet (gps_ifd lat lng (some alt)) GPSAltitude =
         some (ExifVal.vRat (pyRound alt) 1)) ∧
    dictGet (gps_ifd 0 0 (some 10)) GPSAltitudeRef = some (ExifVal.vTuple [1]) ∧
    dictGet (gps_ifd 0 0 (some (-5))) GPSAltitude = some (ExifVal.vRat (-5) 1) := by
  have hnone : ∀ lat lng : ℚ,
      dictGet (gps_ifd lat lng none) GPSAltitudeRef = none ∧
      dictGet (gps_ifd lat lng none) GPSAltitude = none := by
    intro lat lng
    constructor <;>
      simp [gps_ifd, dictGet, GPSVersionID, GPSLatitudeRef, GPSLatitude,
        GPSLongitudeRef, GPSLongitude, GPSAltitudeRef, GPSAltitude]
  have hsome : ∀ lat lng alt : ℚ,
      dictGet (gps_ifd lat lng (some alt)) GPSAltitudeRef =
        some (ExifVal.vTuple [1]) ∧
      dictGet (gps_ifd lat lng (some alt)) GPSAltitude =
        some (ExifVal.vRat (pyRound alt) 1) := by
    intro lat lng alt
    constructor <;>
      simp [gps_ifd, dictGet, dictInsert, change_to_rational_int, GPSVersionID,
        GPSLatitudeRef, GPSLatitude, GPSLongitudeRef, GPSLongitude,
        GPSAltitudeRef, GPSAltitude]
  refine ⟨hnone, hsome, (hsome 0 0 10).1, ?_⟩
  rw [(hsome 0 0 (-5)).2, pyRound_neg_five]

/-- The exact reconstruction identity behind `to_deg`: whatever integers the
truncations produced, the only error in `deg + min/60 + sec/3600` against
the absolute input is the `round(·, 5)` error on the seconds, divided by
3600. -/
lemma reconstruct_bound (a : ℚ) (d m : ℤ) :
    |((d : ℚ) + (m : ℚ) / 60 + round5 (((a - (d : ℚ)) * 60 - (m : ℚ)) * 60) / 3600 - a)|
      ≤ 1 / 100000 := by
  have hkey : (d : ℚ) + (m : ℚ) / 60 + round5 (((a - (d : ℚ)) * 60 - (m : ℚ)) * 60) / 3600 - a
      = (round5 (((a - (d : ℚ)) * 60 - (m : ℚ)) * 60) - ((a - (d : ℚ)) * 60 - (m : ℚ)) * 60) / 3600 := by
    ring
  have herr := round5_err (((a - (d : ℚ)) * 60 - (m : ℚ)) * 60)
  rw [hkey, abs_div, abs_of_pos (show (0 : ℚ) < 3600 by norm_num)]
  rw [div_le_div_iff₀ (by norm_num) (by norm_num)]
  linarith

/-- Claim C6.  For any coordinate in range, the degree/minute/second
decomposition reconstructs the absolute input within `10⁻⁵` degrees, and
the hemisphere symbol follows the input's sign, with the empty marker at
zero. -/
theorem to_deg_round_trip (v : ℚ) (lo hi : String) (h1 : -180 ≤ v) (h2 : v ≤ 180) :
    |(((to_deg v (lo, hi)).deg : ℚ) + ((to_deg v (lo, hi)).min : ℚ) / 60 +
        (to_deg v (lo, hi)).sec / 3600 - |v|)| ≤ 1 / 100000 ∧
    (v < 0 → (to_deg v (lo, hi)).ref = lo) ∧
    (0 < v → (to_deg v (lo, hi)).ref = hi) ∧
    (v = 0 → (to_deg v (lo, hi)).ref = "") := by
  refine ⟨?_, ?_, ?_, ?_⟩
  · exact reconstruct_bound |v| (pyInt |v|) (pyInt ((|v| - ((pyInt |v| : ℤ) : ℚ)) * 60))
  · intro hv
    show (if v < 0 then lo else if 0 < v then hi else "") = lo
    rw [if_pos hv]
  · intro hv
    show (if v < 0 then lo else if 0 < v then hi else "") = hi
    rw [if_neg (by linarith), if_pos hv]
  · intro hv
    subst hv
    show (if (0 : ℚ) < 0 then lo else if (0 : ℚ) < 0 then hi else "") = ""
    norm_num

/-- Witness for `to_deg_round_trip` at `v = −45.5` on the latitude
hemisphere pair. -/
theorem to_deg_round_trip_w :
    |(((to_deg (-91 / 2 : ℚ) ("S", "N")).deg : ℚ) +
        ((to_deg (-91 / 2 : ℚ) ("S", "N")).min : ℚ) / 60 +
        (to_deg (-91 / 2 : ℚ) ("S", "N")).sec / 3600 - |(-91 / 2 : ℚ)|)| ≤ 1 / 100000 ∧
    (to_deg (-91 / 2 : ℚ) ("S", "N")).ref = "S" := by
  have h := to_deg_round_trip (-91 / 2 : ℚ) "S" "N" (by norm_num) (by norm_num)
  exact ⟨h.1, h.2.1 (by norm_num)⟩

/-- Claim C7.  On a finite decimal input `m·10⁻ᵏ` the rational encoder
produces a pair with positive denominator whose quotient equals the decimal
value exactly; every non-finite input fails. -/
theorem change_to_rational_exact :
    (∀ m : ℤ, ∀ k : ℕ, ∃ n d : ℤ,
        change_to_rational_num (PyNum.finite m k) = some (n, d) ∧ 0 < d ∧
        (n : ℚ) / (d : ℚ) = decValue m k) ∧
    change_to_rational_num PyNum.nan = none ∧
    change_to_rational_num PyNum.inf = none ∧
    change_to_rational_num PyNum.ninf = none := by
  refine ⟨?_, rfl, rfl, rfl⟩
  intro m k
  set g : ℤ := (Int.gcd m ((10 : ℤ) ^ k) : ℤ) with hg
  have h10 : (0 : ℤ) < 10 ^ k := pow_pos (by norm_num) k
  have hdvd1 : g ∣ m := Int.gcd_dvd_left
  have hdvd2 : g ∣ (10 : ℤ) ^ k := Int.gcd_dvd_right
  have hgne : Int.gcd m ((10 : ℤ) ^ k) ≠ 0 := by
    intro h0
    have h2 := (Int.gcd_eq_zero_iff.mp h0).2
    rw [h2] at h10
    exact lt_irrefl 0 h10
  have hgpos : 0 < g := by
    rw [hg]
    exact_mod_cast Nat.pos_of_ne_zero hgne
  have hm : m / g * g = m := Int.ediv_mul_cancel hdvd1
  have hk : (10 : ℤ) ^ k / g * g = (10 : ℤ) ^ k := Int.ediv_mul_cancel hdvd2
  have hdpos : 0 < (10 : ℤ) ^ k / g := by
    by_contra hle
    push_neg at hle
    nlinarith
  refine ⟨m / g, (10 : ℤ) ^ k / g, rfl, hdpos, ?_⟩
  have hmQ : ((m / g : ℤ) : ℚ) * (g : ℚ) = (m : ℚ) := by exact_mod_cast congrArg Int.cast hm
  have hkQ : (((10 : ℤ) ^ k / g : ℤ) : ℚ) * (g : ℚ) = (((10 : ℤ) ^ k : ℤ) : ℚ) := by
    exact_mod_cast congrArg Int.cast hk
  have hd0 : (((10 : ℤ) ^ k / g : ℤ) : ℚ) ≠ 0 := by
    exact_mod_cast ne_of_gt hdpos
  have hk0 : (10 : ℚ) ^ k ≠ 0 := by positivity
  have hgQ : (g : ℚ) ≠ 0 := by exact_mod_cast ne_of_gt hgpos
  rw [decValue, div_eq_div_iff hd0 hk0]
  have hcast : (10 : ℚ) ^ k = (((10 : ℤ) ^ k : ℤ) : ℚ) := by push_cast; ring
  rw [hcast, ← hkQ, ← hmQ]
  ring

/-- In a dry directory pass (`wet_run = false`) every file keeps its bytes,
and the per-directory flag is set exactly when some whitelisted file
reported a would-be update. -/
lemma processDir_dry (dist : Coord → Coord → ℚ) (predsOf : String → List Coord)
    (failAt : String → FailAt) (u f : Bool) (tk : ℕ) (md : ℚ) (d : DirEntry) :
    (processDir dist predsOf failAt false u f tk md d).1 = d ∧
    ((processDir dist predsOf failAt false u f tk md d).2 = true ↔
      ∃ nf ∈ d.files, isImageName nf.1 = true ∧
        (update_exif_date dist (predsOf nf.1) (failAt nf.1) nf.2 true u f md tk).res
          = true) := by
  obtain ⟨p, fs⟩ := d
  constructor
  · show DirEntry.mk p _ = DirEntry.mk p fs
    congr 1
    rw [List.map_map]
    have hpt : ∀ nf : String × FileBytes, nf ∈ fs →
        (Prod.fst ∘ fun nf : String × FileBytes =>
          if isImageName nf.1 then
            ((nf.1, (update_exif_date dist (predsOf nf.1) (failAt nf.1) nf.2
                (!false) u f md tk).file),
             (update_exif_date dist (predsOf nf.1) (failAt nf.1) nf.2
                (!false) u f md tk).res)
          else (nf, false)) nf = nf := by
      intro nf _
      obtain ⟨n, fbf⟩ := nf
      simp only [Function.comp_apply]
      by_cases hi : isImageName n
      · have hfile := (update_dry_shape dist (predsOf n) (failAt n) fbf u f md tk).1
        simp [hi, hfile]
      · simp [hi]
    calc fs.map _ = fs.map id := List.map_congr_left hpt
    _ = fs := List.map_id fs
  · show (fs.map _).any Prod.snd = true ↔ _
    rw [List.any_eq_true]
    constructor
    · rintro ⟨y, hy, hres⟩
      obtain ⟨nf, hmem, rfl⟩ := List.mem_map.mp hy
      obtain ⟨n, fbf⟩ := nf
      by_cases hi : isImageName n
      · simp only [hi, if_true] at hres
        exact ⟨(n, fbf), hmem, hi, hres⟩
      · simp [hi] at hres
    · rintro ⟨nf, hmem, hi, hres⟩
      refine ⟨_, List.mem_map_of_mem _ hmem, ?_⟩
      obtain ⟨n, fbf⟩ := nf
      simp only [hi, if_true]
      exact hres

/-- Claim C10.  `process_directory` defaults to `wet_run = false` (so its
per-file calls pass `dry_run = not wet_run = true`); a default run never
rewrites any file; and a directory holding a file whose dry run reports
`True` is included in the printed list of updated directories even though
nothing was mutated. -/
theorem process_directory_default_dry :
    (∀ dist predsOf failAt dirs,
        process_directory dist predsOf failAt dirs =
          process_directory dist predsOf failAt dirs false false false 5 20) ∧
    (∀ dist predsOf failAt dirs (u f : Bool) (tk : ℕ) (md : ℚ),
        (process_directory dist predsOf failAt dirs false u f tk md).1 = dirs) ∧
    (∀ dist predsOf failAt dirs (u f : Bool) (tk : ℕ) (md : ℚ) (d : DirEntry),
        d ∈ dirs →
        (∃ nf ∈ d.files, isImageName nf.1 = true ∧
          (update_exif_date dist (predsOf nf.1) (failAt nf.1) nf.2 true u f md
              tk).res = true) →
        d.path ∈ (process_directory dist predsOf failAt dirs false u f tk md).2) := by
  refine ⟨fun _ _ _ _ => rfl, ?_, ?_⟩
  · intro dist predsOf failAt dirs u f tk md
    show (dirs.map _).map Prod.fst = dirs
    rw [List.map_map]
    calc dirs.map _ = dirs.map id :=
          List.map_congr_left (fun d _ =>
            (processDir_dry dist predsOf failAt u f tk md d).1)
    _ = dirs := List.map_id dirs
  · intro dist predsOf failAt dirs u f tk md d hd hex
    show d.path ∈ ((dirs.map _).filter _).map _
    refine List.mem_map.mpr
      ⟨processDir dist predsOf failAt false u f tk md d, ?_, ?_⟩
    · rw [List.mem_filter]
      exact ⟨List.mem_map_of_mem _ hd,
        (processDir_dry dist predsOf failAt u f tk md d).2.mpr hex⟩
    · rw [(processDir_dry dist predsOf failAt u f tk md d).1]

/-- Witness for `process_directory_default_dry`: a directory with one jpg
with no metadata is reported as updated by the default (dry) run. -/
theorem process_directory_default_dry_w :
    "d" ∈ (process_directory d0 (fun _ => preds0) (fun _ => FailAt.nofail) dirs1
        false false false 5 20).2 := by
  refine process_directory_default_dry.2.2 d0 (fun _ => preds0)
    (fun _ => FailAt.nofail) dirs1 false false 5 20 ⟨"d", [("a.jpg", fb0)]⟩
    (by simp [dirs1]) ?_
  exact ⟨("a.jpg", fb0), by simp, by decide, by rfl⟩
